import Mathlib

/-!
Verification of the aim-trainer core (target spawning, hit resolution,
per-mode target behaviour) of the `aimlab` repository.

The JavaScript source is shallowly embedded:
* JS numbers become `ℚ` (every value the code manipulates here is a finite
  double, hence rational); `Math.sqrt(d) < 2.5` is embedded as the
  equivalent comparison of the squared radicand with `2.5 ^ 2`.
* `Math.random()` becomes an explicit stream `rand : ℕ → ℚ` of draws in
  `[0, 1)`, consumed in call order.
* React state updates (`setTargets prev => ...`) become pure functions from
  the previous target list to the next one.
-/

/-- A 3D coordinate, as the `[x, y, z]` arrays of the source. -/
abbrev Vec3 := ℚ × ℚ × ℚ

/-- A live target record `{ id, position }` as kept in the `targets`
state of `TargetManager.jsx`. -/
structure Target where
  id : ℚ
  position : Vec3
deriving DecidableEq, Repr

/-- Squared Euclidean distance, the radicand
`dx*dx + dy*dy + dz*dz` computed in `generateRandomPosition`. -/
def dist2 (a b : Vec3) : ℚ :=
  (a.1 - b.1) * (a.1 - b.1) + (a.2.1 - b.2.1) * (a.2.1 - b.2.1) +
    (a.2.2 - b.2.2) * (a.2.2 - b.2.2)

/-- `MIN_DISTANCE = 2.5` of `TargetManager.jsx`. -/
def MIN_DISTANCE : ℚ := 5 / 2

/-- `MAX_ATTEMPTS = 20` of `generateRandomPosition`. -/
def MAX_ATTEMPTS : ℕ := 20

/-- The candidate drawn on attempt `k`:
`[Math.random() * 6 - 3, Math.random() * 3 + 1.5, 8]`, consuming the two
stream entries `2*k` and `2*k+1`. -/
def candidateAt (rand : ℕ → ℚ) (k : ℕ) : Vec3 :=
  (rand (2 * k) * 6 - 3, rand (2 * k + 1) * 3 + 3 / 2, 8)

/-- The `tooClose` test of `generateRandomPosition`: some existing target
is at (squared) distance below `MIN_DISTANCE ^ 2`, i.e. at Euclidean
distance below `MIN_DISTANCE` (the source compares
`Math.sqrt(dx*dx+dy*dy+dz*dz) < MIN_DISTANCE`). -/
def tooClose (c : Vec3) (existingTargets : List Target) : Bool :=
  existingTargets.any fun t =>
    decide (dist2 c t.position < MIN_DISTANCE * MIN_DISTANCE)

/-- The `while (!isValid && attempts < MAX_ATTEMPTS)` loop of
`generateRandomPosition`: `k` is the index of the next attempt in the
random stream, the second argument the number of attempts left.  When the
attempt budget is exhausted the source draws one more fresh candidate
(`position = [Math.random() * 6 - 3, ...]`), which in stream order is
exactly `candidateAt rand k`. -/
def genAttempts (rand : ℕ → ℚ) (existingTargets : List Target) :
    ℕ → ℕ → Vec3
  | k, 0 => candidateAt rand k
  | k, n + 1 =>
    if tooClose (candidateAt rand k) existingTargets then
      genAttempts rand existingTargets (k + 1) n
    else candidateAt rand k

/-- `generateRandomPosition(existingTargets)` of `TargetManager.jsx`. -/
def generateRandomPosition (rand : ℕ → ℚ) (existingTargets : List Target) : Vec3 :=
  genAttempts rand existingTargets 0 MAX_ATTEMPTS

/-- The loop accepts some candidate within the `MAX_ATTEMPTS` cap
(`isValid` is true on exit). -/
def acceptedWithinCap (rand : ℕ → ℚ) (existingTargets : List Target) : Bool :=
  (List.range MAX_ATTEMPTS).any fun k => !(tooClose (candidateAt rand k) existingTargets)

/-- `handleTargetHit(targetId)` of `TargetManager.jsx`: if the id is not
live, return the state unchanged; otherwise remove that target and append
one replacement whose position is generated against the post-removal
list.  `newId` stands for the fresh `Date.now() + Math.random()` id. -/
def handleTargetHit (targetId newId : ℚ) (rand : ℕ → ℚ)
    (targets : List Target) : List Target :=
  if targets.any fun t => decide (t.id = targetId) then
    let remaining := targets.filter fun t => decide (t.id ≠ targetId)
    remaining ++ [{ id := newId, position := generateRandomPosition rand remaining }]
  else targets

/-- `handleTargetTimeout(targetId)` of `TargetManager.jsx`; identical
removal/replacement logic to `handleTargetHit` (no score is touched in the
manager either way). -/
def handleTargetTimeout (targetId newId : ℚ) (rand : ℕ → ℚ)
    (targets : List Target) : List Target :=
  if targets.any fun t => decide (t.id = targetId) then
    let remaining := targets.filter fun t => decide (t.id ≠ targetId)
    remaining ++ [{ id := newId, position := generateRandomPosition rand remaining }]
  else targets

/-- The four game modes of the source (`GameMenu.jsx`, `TargetManager.jsx`). -/
inductive GameMode
  | normal
  | random_size
  | strafing
  | pulse
deriving DecidableEq, Repr

/-- `(gameMode === 'random_size' || gameMode === 'pulse') ? 5 : 3` of the
initial-spawn effect in `TargetManager.jsx`. -/
def spawnCount : GameMode → ℕ
  | .random_size => 5
  | .pulse => 5
  | _ => 3

/-- One spawn step of the initial-spawn effect: append a target whose
position is generated against the targets inserted so far.  `rand i` is
the random stream consumed by the `i`-th call to `generateRandomPosition`
and `ids i` the `i`-th fresh id `Date.now() + Math.random() + i`. -/
def spawnStep (rand : ℕ → ℕ → ℚ) (ids : ℕ → ℚ) (acc : List Target) (i : ℕ) :
    List Target :=
  acc ++ [{ id := ids i, position := generateRandomPosition (rand i) acc }]

/-- The non-pulse branch of the initial-spawn effect: `spawnCount` targets
generated in one batch, each consulting only the targets already placed in
this batch. -/
def spawnBatch (rand : ℕ → ℕ → ℚ) (ids : ℕ → ℚ) (count : ℕ) : List Target :=
  (List.range count).foldl (spawnStep rand ids) []

/-- The pulse branch of the initial-spawn effect: after `setTargets([])`,
spawn `i` is scheduled by `setTimeout` at time `i * 500`; the live list at
time `t` is the fold of the spawn steps whose scheduled time has passed,
in schedule order. -/
def pulseTargetsAt (rand : ℕ → ℕ → ℚ) (ids : ℕ → ℚ) (count t : ℕ) :
    List Target :=
  ((List.range count).filter fun i => decide (i * 500 ≤ t)).foldl
    (spawnStep rand ids) []

/-- The live list produced by a mode change once the initial-spawn effect
has fully run (for pulse: once every staggered `setTimeout` has fired,
i.e. at `t = 2000`). -/
def setModeTargets (mode : GameMode) (rand : ℕ → ℕ → ℚ) (ids : ℕ → ℚ) :
    List Target :=
  match mode with
  | .pulse => pulseTargetsAt rand ids (spawnCount .pulse) 2000
  | m => spawnBatch rand ids (spawnCount m)

/-! ## Hit Resolver (`handleShoot` of `Player.jsx`) -/

/-- The data of a scene object the filter of `handleShoot` consults:
`userData.isTarget`, `userData.targetId` and `name`.  An object without
target user data is represented with `isTarget := false`. -/
structure SceneObject where
  isTarget : Bool
  targetId : ℚ
  name : String
deriving DecidableEq, Repr

/-- One entry of the distance-ordered list returned by
`raycaster.intersectObjects(scene.children, true)`. -/
structure Intersection where
  obj : SceneObject
  distance : ℚ
  point : Vec3
deriving DecidableEq, Repr

/-- The filter predicate of `handleShoot`: targets are always kept
(`userData.isTarget` is checked first); otherwise objects named
`'floor'` or `'back-wall'` are skipped; everything else is kept. -/
def keepIntersect (i : Intersection) : Bool :=
  if i.obj.isTarget then true
  else if i.obj.name = "floor" ∨ i.obj.name = "back-wall" then false
  else true

/-- `filteredIntersects` of `handleShoot`. -/
def filteredIntersects (l : List Intersection) : List Intersection :=
  l.filter keepIntersect

/-- The target-hit outcome of `handleShoot`: the id reported through
`onTargetHit`, i.e. `some targetId` exactly when the nearest retained
candidate carries target user data. -/
def resolveHitTarget (l : List Intersection) : Option ℚ :=
  match filteredIntersects l with
  | [] => none
  | first :: _ => if first.obj.isTarget then some first.obj.targetId else none

/-- `ray.at(t)` of three.js: `origin + dir * t`, componentwise. -/
def rayAt (origin dir : Vec3) (t : ℚ) : Vec3 :=
  (origin.1 + dir.1 * t, origin.2.1 + dir.2.1 * t, origin.2.2 + dir.2.2 * t)

/-- The resolved end point (`laserEnd`) of `handleShoot`: the nearest
retained candidate's intersection point, or `raycaster.ray.at(100)` when
the retained list is empty. -/
def resolveEnd (origin dir : Vec3) (l : List Intersection) : Vec3 :=
  match filteredIntersects l with
  | [] => rayAt origin dir 100
  | first :: _ => first.point

/-- The named environment surfaces built by `GameScene.jsx` (the `name`
attributes of its five meshes). -/
def envSurfaceNames : List String :=
  ["floor", "back-wall", "left-wall", "right-wall", "ceiling"]

/-! ## Pulse-mode target entity (`Target.jsx`) -/

/-- `pulseSpeed` of `Target.jsx` for `gameMode === 'pulse'`:
`Math.random() * (maxSpeed - minSpeed) + minSpeed` with
`minSpeed = 0.3`, `maxSpeed = 0.5`; `r` is the `Math.random()` draw. -/
def pulseSpeed (r : ℚ) : ℚ :=
  r * (5 / 10 - 3 / 10) + 3 / 10

/-- `Math.PI`: the IEEE-754 double nearest to π, namely
`884279719003555 / 2^48` (the constant the source's comparison
`lifeRef.current > Math.PI` actually uses). -/
def MathPI : ℚ := 884279719003555 / 281474976710656

/-- The per-frame state of a pulse-mode target: `lifeRef.current` and the
fired-once flag `hasTimedOut.current`. -/
structure PulseState where
  life : ℚ
  fired : Bool
deriving DecidableEq, Repr

/-- The state set on mount: `lifeRef.current = 0`,
`hasTimedOut.current = false` (and scale `0`). -/
def pulseInit : PulseState := { life := 0, fired := false }

/-- One `useFrame` step of the pulse animation: advance
`lifeRef.current += delta * pulseSpeed`, and fire the timeout callback
exactly when the new life exceeds `Math.PI` and the flag is still unset
(setting the flag in that case).  Returns the new state and whether the
timeout fired on this frame. -/
def pulseFrame (speed : ℚ) (s : PulseState) (delta : ℚ) : PulseState × Bool :=
  let life := s.life + delta * speed
  let fires := decide (MathPI < life) && !s.fired
  ({ life := life, fired := s.fired || fires }, fires)

/-- Run the pulse animation over a list of frame deltas from state `s`,
collecting the per-frame timeout-fired flags in order. -/
def pulseRun (speed : ℚ) : List ℚ → PulseState → PulseState × List Bool
  | [], s => (s, [])
  | d :: ds, s =>
    ((pulseRun speed ds (pulseFrame speed s d).1).1,
      (pulseFrame speed s d).2 :: (pulseRun speed ds (pulseFrame speed s d).1).2)

/-- The value of the life clock after frame `i` (0-based) of a run that
starts from `pulseInit`: the accumulated `delta * speed` of the first
`i + 1` frames. -/
def lifeAt (speed : ℚ) (ds : List ℚ) (i : ℕ) : ℚ :=
  speed * ((ds.take (i + 1)).sum)

/-! ## Application level (`App.jsx`) -/

/-- The app state the hit path touches: the score and the manager's live
targets. -/
structure AppState where
  score : ℕ
  targets : List Target
deriving Repr

/-- `handleTargetHit` of `App.jsx`: increment the score unconditionally
(`setScore(prev => prev + 1)`), then forward the id to the manager's
`handleTargetHit` (the audio effect carries no game state and is not
modelled). -/
def appHandleTargetHit (targetId newId : ℚ) (rand : ℕ → ℚ) (s : AppState) :
    AppState :=
  { score := s.score + 1
    targets := handleTargetHit targetId newId rand s.targets }

/-! ## Helper lemmas -/

/-- The two manager handlers have literally the same body. -/
lemma handleTargetTimeout_eq_handleTargetHit :
    handleTargetTimeout = handleTargetHit := rfl

/-- A call with an id no live target carries is a no-op. -/
lemma handleTargetHit_not_live (targetId newId : ℚ) (rand : ℕ → ℚ)
    (targets : List Target) (h : ∀ t ∈ targets, t.id ≠ targetId) :
    handleTargetHit targetId newId rand targets = targets := by
  unfold handleTargetHit
  rw [if_neg]
  simp only [List.any_eq_true, decide_eq_true_eq, not_exists, not_and]
  intro t ht
  exact h t ht

/-- Removing a present id from a list with pairwise-distinct ids drops
exactly one element. -/
lemma length_filter_ne_of_mem (x : ℚ) :
    ∀ targets : List Target, (targets.map Target.id).Nodup →
      (∃ t ∈ targets, t.id = x) →
      (targets.filter fun t => decide (t.id ≠ x)).length + 1 = targets.length
  | [] => by simp
  | t :: ts => by
    intro hnd hmem
    simp only [List.map_cons, List.nodup_cons] at hnd
    by_cases h : t.id = x
    · have hts : ∀ u ∈ ts, u.id ≠ x := by
        intro u hu he
        exact hnd.1 (List.mem_map.mpr ⟨u, hu, by rw [he, h]⟩)
      rw [List.filter_cons_of_neg (by simp [h])]
      rw [List.filter_eq_self.mpr (fun u hu => by simp [hts u hu])]
      simp
    · rw [List.filter_cons_of_pos (by simp [h])]
      have hmem' : ∃ u ∈ ts, u.id = x := by
        rcases hmem with ⟨u, hu, he⟩
        rcases List.mem_cons.mp hu with rfl | hu'
        · exact absurd he h
        · exact ⟨u, hu', he⟩
      have := length_filter_ne_of_mem x ts hnd.2 hmem'
      simp only [List.length_cons]
      omega

/-- When the hit id is live, the handler appends one replacement to the
filtered remainder. -/
lemma handleTargetHit_live (targetId newId : ℚ) (rand : ℕ → ℚ)
    (targets : List Target) (h : ∃ t ∈ targets, t.id = targetId) :
    handleTargetHit targetId newId rand targets =
      (targets.filter fun t => decide (t.id ≠ targetId)) ++
        [{ id := newId
           position := generateRandomPosition rand
             (targets.filter fun t => decide (t.id ≠ targetId)) }] := by
  unfold handleTargetHit
  rw [if_pos]
  simp only [List.any_eq_true, decide_eq_true_eq]
  exact h

/-- After a hit call whose fresh id differs from the hit id, no live
target carries the hit id any more. -/
lemma handleTargetHit_id_gone (targetId newId : ℚ) (rand : ℕ → ℚ)
    (targets : List Target) (hne : newId ≠ targetId) :
    ∀ t ∈ handleTargetHit targetId newId rand targets, t.id ≠ targetId := by
  by_cases h : ∃ t ∈ targets, t.id = targetId
  · rw [handleTargetHit_live targetId newId rand targets h]
    intro t ht
    rcases List.mem_append.mp ht with h1 | h2
    · exact of_decide_eq_true (List.mem_filter.mp h1).2
    · simp only [List.mem_singleton] at h2
      subst h2
      exact hne
  · push_neg at h
    rw [handleTargetHit_not_live targetId newId rand targets h]
    exact h

/-! ## Claim theorems -/

/-- A random stream whose first 40 draws are `1/2` (making each of the 20
capped candidates `(0, 3, 8)`) and whose later draws are `0`. -/
def crowdedRand : ℕ → ℚ := fun n => if n < 40 then 1 / 2 else 0

/-- One pre-existing target sitting exactly at the point every capped
candidate hits, so all 20 attempts are rejected. -/
def crowdedExisting : List Target := [{ id := 0, position := (0, 3, 8) }]

/-- C1: when all 20 drawn candidates are rejected, the code does NOT
return the last-drawn (20th) candidate: it draws one further fresh
candidate (stream position 20, i.e. `Math.random()` calls 41 and 42) and
returns that, contradicting the claim (and the source's own comment
"use the last generated position"). -/
theorem generateRandomPosition_exhausted_draws_fresh :
    (∀ k < MAX_ATTEMPTS, tooClose (candidateAt crowdedRand k) crowdedExisting = true) ∧
    generateRandomPosition crowdedRand crowdedExisting =
      candidateAt crowdedRand MAX_ATTEMPTS ∧
    generateRandomPosition crowdedRand crowdedExisting ≠
      candidateAt crowdedRand (MAX_ATTEMPTS - 1) := by
  refine ⟨?_, ?_, ?_⟩
  · intro k hk
    rw [MAX_ATTEMPTS] at hk
    have h1 : 2 * k < 40 := by omega
    have h2 : 2 * k + 1 < 40 := by omega
    norm_num [candidateAt, crowdedRand, h1, h2, tooClose, dist2, crowdedExisting,
      MIN_DISTANCE]
  · norm_num [generateRandomPosition, MAX_ATTEMPTS, genAttempts, candidateAt,
      tooClose, dist2, crowdedRand, crowdedExisting, MIN_DISTANCE]
  · norm_num [generateRandomPosition, MAX_ATTEMPTS, genAttempts, candidateAt,
      tooClose, dist2, crowdedRand, crowdedExisting, MIN_DISTANCE, Prod.ext_iff]

/-- C3: when the live count equals the mode's spawn count and the hit or
timed-out id is live (ids pairwise distinct), the handler removes exactly
that target and appends exactly one replacement, so the count is again the
mode's spawn count. -/
theorem live_count_restored_after_hit_or_timeout (mode : GameMode)
    (targets : List Target) (targetId newId : ℚ) (rand : ℕ → ℚ)
    (hnd : (targets.map Target.id).Nodup)
    (hlive : ∃ t ∈ targets, t.id = targetId)
    (hcount : targets.length = spawnCount mode) :
    (handleTargetHit targetId newId rand targets).length = spawnCount mode ∧
    (handleTargetTimeout targetId newId rand targets).length = spawnCount mode ∧
    (newId ≠ targetId →
      ∀ t ∈ handleTargetHit targetId newId rand targets, t.id ≠ targetId) := by
  have hlen : (handleTargetHit targetId newId rand targets).length = spawnCount mode := by
    rw [handleTargetHit_live targetId newId rand targets hlive, List.length_append]
    have := length_filter_ne_of_mem targetId targets hnd hlive
    simp only [List.length_singleton]
    omega
  refine ⟨hlen, ?_, ?_⟩
  · rw [handleTargetTimeout_eq_handleTargetHit]
    exact hlen
  · intro hne
    exact handleTargetHit_id_gone targetId newId rand targets hne

/-- Three distinct live targets used to instantiate the manager claims. -/
def demoTargets : List Target :=
  [{ id := 1, position := (0, 3, 8) }, { id := 2, position := (3, 3, 8) },
   { id := 3, position := (-3, 3, 8) }]

/-- Witness for C3 at a concrete three-target normal-mode state. -/
theorem live_count_restored_after_hit_or_timeout_witness :
    ((demoTargets.map Target.id).Nodup ∧ (∃ t ∈ demoTargets, t.id = 2) ∧
      demoTargets.length = spawnCount .normal) ∧
    ((handleTargetHit 2 9 (fun _ => 0) demoTargets).length = spawnCount .normal ∧
     (handleTargetTimeout 2 9 (fun _ => 0) demoTargets).length = spawnCount .normal ∧
     ((9 : ℚ) ≠ 2 →
       ∀ t ∈ handleTargetHit 2 9 (fun _ => 0) demoTargets, t.id ≠ 2)) :=
  ⟨⟨by decide, by decide, by decide⟩,
    live_count_restored_after_hit_or_timeout .normal demoTargets 2 9 (fun _ => 0)
      (by decide) (by decide) (by decide)⟩

/-- C4: a hit or timeout call whose id is not live leaves the live list
unchanged, and a second hit call with the same id (the replacement's fresh
id being different) is a no-op, so it preserves the target count. -/
theorem stale_id_hit_noop_and_idempotent (targets : List Target)
    (targetId newId newId2 : ℚ) (rand rand2 : ℕ → ℚ) :
    ((∀ t ∈ targets, t.id ≠ targetId) →
        handleTargetHit targetId newId rand targets = targets ∧
        handleTargetTimeout targetId newId rand targets = targets) ∧
    (newId ≠ targetId →
        handleTargetHit targetId newId2 rand2
            (handleTargetHit targetId newId rand targets) =
          handleTargetHit targetId newId rand targets) := by
  constructor
  · intro h
    refine ⟨handleTargetHit_not_live _ _ _ _ h, ?_⟩
    rw [handleTargetTimeout_eq_handleTargetHit]
    exact handleTargetHit_not_live _ _ _ _ h
  · intro hne
    exact handleTargetHit_not_live _ _ _ _
      (handleTargetHit_id_gone _ _ _ _ hne)

/-- Witness for C4 at a concrete one-target state and a stale id. -/
theorem stale_id_hit_noop_and_idempotent_witness :
    (∀ t ∈ demoTargets, t.id ≠ 7) ∧ (9 : ℚ) ≠ 2 ∧
    (((∀ t ∈ demoTargets, t.id ≠ 7) →
        handleTargetHit 7 9 (fun _ => 0) demoTargets = demoTargets ∧
        handleTargetTimeout 7 9 (fun _ => 0) demoTargets = demoTargets) ∧
     ((9 : ℚ) ≠ 2 →
        handleTargetHit 2 8 (fun _ => 1 / 2)
            (handleTargetHit 2 9 (fun _ => 0) demoTargets) =
          handleTargetHit 2 9 (fun _ => 0) demoTargets)) :=
  ⟨by decide, by decide,
    ⟨(stale_id_hit_noop_and_idempotent demoTargets 7 9 9 (fun _ => 0) (fun _ => 0)).1,
     (stale_id_hit_noop_and_idempotent demoTargets 2 9 8 (fun _ => 0) (fun _ => 1 / 2)).2⟩⟩

/-- C9: with an empty retained-candidate list the shot is a miss and the
resolved end point is `ray.at(100)`, the point 100 units along the ray
direction from the origin; when the nearest retained candidate is a
non-target, the end point is its intersection point and no target hit is
reported. -/
theorem shot_miss_and_environment_resolution (origin dir : Vec3)
    (l : List Intersection) :
    (filteredIntersects l = [] →
      resolveHitTarget l = none ∧ resolveEnd origin dir l = rayAt origin dir 100) ∧
    (∀ first rest, filteredIntersects l = first :: rest →
      first.obj.isTarget = false →
      resolveHitTarget l = none ∧ resolveEnd origin dir l = first.point) := by
  constructor
  · intro h
    constructor
    · unfold resolveHitTarget
      rw [h]
    · unfold resolveEnd
      rw [h]
  · intro first rest h hft
    constructor
    · unfold resolveHitTarget
      rw [h]
      simp [hft]
    · unfold resolveEnd
      rw [h]

/-- Witness for C9: an empty scene yields a miss at 100 units along the
ray, and a nearest-retained left-wall candidate yields its own point. -/
theorem shot_miss_and_environment_resolution_witness :
    (filteredIntersects [] = [] ∧
      (resolveHitTarget [] = none ∧
        resolveEnd (0, 3 / 2, 0) (0, 0, 1) [] = rayAt (0, 3 / 2, 0) (0, 0, 1) 100)) :=
  ⟨rfl, (shot_miss_and_environment_resolution (0, 3 / 2, 0) (0, 0, 1) []).1 rfl⟩

/-- C10: the app-level hit handler increments the score by exactly 1
unconditionally; with a stale id the manager's list is left unchanged
while the score still increments. -/
theorem score_increment_unconditional (s : AppState) (targetId newId : ℚ)
    (rand : ℕ → ℚ) :
    (appHandleTargetHit targetId newId rand s).score = s.score + 1 ∧
    ((∀ t ∈ s.targets, t.id ≠ targetId) →
      (appHandleTargetHit targetId newId rand s).targets = s.targets) := by
  refine ⟨rfl, ?_⟩
  intro h
  exact handleTargetHit_not_live _ _ _ _ h

/-- Witness for C10 at a concrete app state and a stale id. -/
theorem score_increment_unconditional_witness :
    (∀ t ∈ ({ score := 5, targets := demoTargets } : AppState).targets, t.id ≠ 7) ∧
    ((appHandleTargetHit 7 9 (fun _ => 0)
        { score := 5, targets := demoTargets }).score = 5 + 1 ∧
     ((∀ t ∈ ({ score := 5, targets := demoTargets } : AppState).targets, t.id ≠ 7) →
       (appHandleTargetHit 7 9 (fun _ => 0)
          { score := 5, targets := demoTargets }).targets = demoTargets)) :=
  ⟨by decide,
    score_increment_unconditional { score := 5, targets := demoTargets } 7 9 (fun _ => 0)⟩

/-- An intersection whose object is the left wall of `GameScene.jsx`
(`name="left-wall"`, no target user data). -/
def leftWallHit : Intersection :=
  { obj := { isTarget := false, targetId := 0, name := "left-wall" }
    distance := 5
    point := (-10, 3, 0) }

/-- C2 counterexample: the left wall is a named environment surface, yet
the filter retains it, so it is reported as the hit-outcome object (the
resolved end point is its intersection point); the claim that every named
environment surface is excluded is false. -/
theorem left_wall_reported_as_hit_outcome :
    "left-wall" ∈ envSurfaceNames ∧
    keepIntersect leftWallHit = true ∧
    filteredIntersects [leftWallHit] = [leftWallHit] ∧
    resolveEnd (0, 3 / 2, 0) (-1, 0, 0) [leftWallHit] = leftWallHit.point := by
  refine ⟨?_, ?_, ?_, ?_⟩
  · simp [envSurfaceNames]
  · simp [keepIntersect, leftWallHit]
  · simp [filteredIntersects, keepIntersect, leftWallHit]
  · simp [resolveEnd, filteredIntersects, keepIntersect, leftWallHit]

/-- C2 (amended): the filter always retains target-tagged objects; among
non-targets it excludes exactly the objects named `'floor'` and
`'back-wall'` (the left wall, right wall and ceiling are retained and can
be reported); and a target preceded only by filtered-out candidates is
still reported as the hit. -/
theorem hit_filter_excludes_only_floor_and_back_wall
    (i : Intersection) (pre post : List Intersection) (t : Intersection) :
    (i.obj.isTarget = true → keepIntersect i = true) ∧
    (i.obj.isTarget = false →
      (keepIntersect i = false ↔
        (i.obj.name = "floor" ∨ i.obj.name = "back-wall"))) ∧
    (t.obj.isTarget = true → (∀ j ∈ pre, keepIntersect j = false) →
      resolveHitTarget (pre ++ t :: post) = some t.obj.targetId) := by
  refine ⟨?_, ?_, ?_⟩
  · intro h
    simp [keepIntersect, h]
  · intro h
    by_cases hn : i.obj.name = "floor" ∨ i.obj.name = "back-wall"
    · simp [keepIntersect, h, hn]
    · simp [keepIntersect, h, hn]
  · intro ht hpre
    unfold resolveHitTarget filteredIntersects
    rw [List.filter_append, List.filter_eq_nil_iff.mpr ?_,
      List.filter_cons_of_pos (by simp [keepIntersect, ht])]
    · simp [ht]
    · intro a ha
      simp [hpre a ha]

/-- An intersection with the floor, nearer than the target behind it. -/
def floorHit : Intersection :=
  { obj := { isTarget := false, targetId := 0, name := "floor" }
    distance := 2
    point := (0, 0, 4) }

/-- An intersection with a target sphere (`userData.isTarget = true`). -/
def targetSphereHit : Intersection :=
  { obj := { isTarget := true, targetId := 42, name := "target-sphere" }
    distance := 9
    point := (0, 3, 8) }

/-- Witness for the amended C2: a floor candidate ahead of a target is
filtered out and the target is still reported. -/
theorem hit_filter_excludes_only_floor_and_back_wall_witness :
    targetSphereHit.obj.isTarget = true ∧
    (∀ j ∈ [floorHit], keepIntersect j = false) ∧
    ((targetSphereHit.obj.isTarget = true → keepIntersect targetSphereHit = true) ∧
     (targetSphereHit.obj.isTarget = false →
       (keepIntersect targetSphereHit = false ↔
         (targetSphereHit.obj.name = "floor" ∨
          targetSphereHit.obj.name = "back-wall"))) ∧
     (targetSphereHit.obj.isTarget = true →
       (∀ j ∈ [floorHit], keepIntersect j = false) →
       resolveHitTarget ([floorHit] ++ targetSphereHit :: []) =
         some targetSphereHit.obj.targetId)) :=
  ⟨rfl, by simp [keepIntersect, floorHit],
    hit_filter_excludes_only_floor_and_back_wall targetSphereHit [floorHit] []
      targetSphereHit⟩

/-- The fold of spawn steps grows the accumulator by one target per step,
whatever positions come out of the generator. -/
lemma foldl_spawnStep_length (rand : ℕ → ℕ → ℚ) (ids : ℕ → ℚ) :
    ∀ (l : List ℕ) (acc : List Target),
      (l.foldl (spawnStep rand ids) acc).length = acc.length + l.length
  | [], acc => by simp
  | i :: l, acc => by
    rw [List.foldl_cons, foldl_spawnStep_length rand ids l (spawnStep rand ids acc i)]
    simp [spawnStep]
    omega

/-- A batch spawn of `count` targets has length `count`. -/
lemma spawnBatch_length (rand : ℕ → ℕ → ℚ) (ids : ℕ → ℚ) (count : ℕ) :
    (spawnBatch rand ids count).length = count := by
  unfold spawnBatch
  rw [foldl_spawnStep_length]
  simp

/-- The staggered pulse list at time `t` has one target per fired spawn. -/
lemma pulseTargetsAt_length (rand : ℕ → ℕ → ℚ) (ids : ℕ → ℚ) (count t : ℕ) :
    (pulseTargetsAt rand ids count t).length =
      ((List.range count).filter fun i => decide (i * 500 ≤ t)).length := by
  unfold pulseTargetsAt
  rw [foldl_spawnStep_length]
  simp

/-- C8: a mode change clears the live set and re-spawns exactly the
mode's configured count: 3 for normal, 3 for strafing, 5 for random_size,
5 for pulse. -/
theorem mode_change_respawn_counts (rand : ℕ → ℕ → ℚ) (ids : ℕ → ℚ) :
    spawnCount .normal = 3 ∧ spawnCount .strafing = 3 ∧
    spawnCount .random_size = 5 ∧ spawnCount .pulse = 5 ∧
    ∀ mode, (setModeTargets mode rand ids).length = spawnCount mode := by
  refine ⟨rfl, rfl, rfl, rfl, ?_⟩
  intro mode
  cases mode
  · exact spawnBatch_length rand ids _
  · exact spawnBatch_length rand ids _
  · exact spawnBatch_length rand ids _
  · show (pulseTargetsAt rand ids (spawnCount .pulse) 2000).length = spawnCount .pulse
    rw [pulseTargetsAt_length]
    decide

/-- C7: in pulse mode, after the clear, the staggered spawns at
`t = 0, 500, 1000, 1500, 2000` make the live count climb by one per step
(count `i + 1` right after the spawn at `t = i * 500`), the count is
monotone in time, and exactly 5 targets are live by `t = 2000`. -/
theorem pulse_staggered_spawn_counts (rand : ℕ → ℕ → ℚ) (ids : ℕ → ℚ) :
    (∀ i < 5, (pulseTargetsAt rand ids (spawnCount .pulse) (i * 500)).length = i + 1) ∧
    (pulseTargetsAt rand ids (spawnCount .pulse) 2000).length = 5 ∧
    (∀ t t' : ℕ, t ≤ t' →
      (pulseTargetsAt rand ids (spawnCount .pulse) t).length ≤
        (pulseTargetsAt rand ids (spawnCount .pulse) t').length) := by
  refine ⟨?_, ?_, ?_⟩
  · intro i hi
    rw [pulseTargetsAt_length]
    interval_cases i <;> decide
  · rw [pulseTargetsAt_length]
    decide
  · intro t t' htt
    rw [pulseTargetsAt_length, pulseTargetsAt_length,
      ← List.countP_eq_length_filter, ← List.countP_eq_length_filter]
    apply List.countP_mono_left
    intro i _ h
    simp only [decide_eq_true_eq] at h ⊢
    omega

/-- Witness for C7 at the third stagger step and a concrete time pair. -/
theorem pulse_staggered_spawn_counts_witness :
    2 < 5 ∧ (500 : ℕ) ≤ 1500 ∧
    (pulseTargetsAt (fun _ _ => 0) (fun _ => 0) (spawnCount .pulse) (2 * 500)).length
      = 2 + 1 ∧
    (pulseTargetsAt (fun _ _ => 0) (fun _ => 0) (spawnCount .pulse) 500).length ≤
      (pulseTargetsAt (fun _ _ => 0) (fun _ => 0) (spawnCount .pulse) 1500).length :=
  ⟨by decide, by decide,
    (pulse_staggered_spawn_counts (fun _ _ => 0) (fun _ => 0)).1 2 (by decide),
    (pulse_staggered_spawn_counts (fun _ _ => 0) (fun _ => 0)).2.2 500 1500 (by decide)⟩

/-- Squared distance is symmetric. -/
lemma dist2_comm (a b : Vec3) : dist2 a b = dist2 b a := by
  unfold dist2
  ring

/-- If some candidate within the remaining budget passes the separation
test, the attempt loop returns a candidate that passes it. -/
lemma genAttempts_not_tooClose (rand : ℕ → ℚ) (existingTargets : List Target) :
    ∀ (n k : ℕ),
      (∃ j < n, tooClose (candidateAt rand (k + j)) existingTargets = false) →
      tooClose (genAttempts rand existingTargets k n) existingTargets = false
  | 0, k => by
    rintro ⟨j, hj, _⟩
    omega
  | n + 1, k => by
    rintro ⟨j, hj, hb⟩
    rw [genAttempts]
    by_cases hc : tooClose (candidateAt rand k) existingTargets = true
    · rw [if_pos hc]
      apply genAttempts_not_tooClose rand existingTargets n (k + 1)
      cases j with
      | zero =>
        rw [Nat.add_zero] at hb
        rw [hb] at hc
        cases hc
      | succ j' =>
        refine ⟨j', by omega, ?_⟩
        rw [show k + 1 + j' = k + (j' + 1) by omega]
        exact hb
    · rw [if_neg hc]
      exact Bool.not_eq_true _ ▸ Bool.of_not_eq_true hc

/-- A position accepted within the attempt cap passes the separation test
against every existing target. -/
lemma generateRandomPosition_accepted (rand : ℕ → ℚ)
    (existingTargets : List Target)
    (h : acceptedWithinCap rand existingTargets = true) :
    tooClose (generateRandomPosition rand existingTargets) existingTargets = false := by
  unfold generateRandomPosition
  apply genAttempts_not_tooClose
  simp only [acceptedWithinCap, List.any_eq_true, List.mem_range,
    Bool.not_eq_true'] at h
  obtain ⟨k, hk, hb⟩ := h
  exact ⟨k, hk, by simpa using hb⟩

/-- Failing the `tooClose` test means squared distance at least
`MIN_DISTANCE²` to every existing target. -/
lemma tooClose_false_min_sep (c : Vec3) (existingTargets : List Target)
    (h : tooClose c existingTargets = false) :
    ∀ t ∈ existingTargets,
      MIN_DISTANCE * MIN_DISTANCE ≤ dist2 c t.position := by
  simp only [tooClose, List.any_eq_false, decide_eq_true_eq] at h
  intro t ht
  exact not_lt.mp (h t ht)

/-- Unfolding one step of the batch spawn. -/
lemma spawnBatch_succ (rand : ℕ → ℕ → ℚ) (ids : ℕ → ℚ) (n : ℕ) :
    spawnBatch rand ids (n + 1) = spawnStep rand ids (spawnBatch rand ids n) n := by
  unfold spawnBatch
  rw [List.range_succ, List.foldl_append]
  rfl

/-- If every spawn of a batch is accepted within the cap, the batch is
pairwise separated by at least `MIN_DISTANCE` (squared form). -/
lemma spawnBatch_pairwise (rand : ℕ → ℕ → ℚ) (ids : ℕ → ℚ) :
    ∀ count : ℕ,
      (∀ i < count, acceptedWithinCap (rand i) (spawnBatch rand ids i) = true) →
      (spawnBatch rand ids count).Pairwise
        (fun a b => MIN_DISTANCE * MIN_DISTANCE ≤ dist2 a.position b.position)
  | 0, _ => by simp [spawnBatch]
  | n + 1, h2 => by
    rw [spawnBatch_succ]
    unfold spawnStep
    rw [List.pairwise_append]
    refine ⟨spawnBatch_pairwise rand ids n (fun i hi => h2 i (by omega)),
      List.pairwise_singleton _ _, ?_⟩
    intro a ha b hb
    simp only [List.mem_singleton] at hb
    subst hb
    have hsep := tooClose_false_min_sep _ _
      (generateRandomPosition_accepted _ _ (h2 n (by omega))) a ha
    rw [dist2_comm]
    exact hsep

/-- C5: a position accepted within the 20-attempt cap is at Euclidean
distance at least `MIN_DISTANCE = 2.5` (stated via squared distances, the
form the source's `Math.sqrt(...) < MIN_DISTANCE` test is equivalent to)
from every existing target; consequently a fully-settled batch in which
every spawn was accepted within the cap is pairwise separated by at least
2.5. -/
theorem min_separation_enforced (rand1 : ℕ → ℚ) (existingTargets : List Target)
    (rand : ℕ → ℕ → ℚ) (ids : ℕ → ℚ) (count : ℕ)
    (h1 : acceptedWithinCap rand1 existingTargets = true)
    (h2 : ∀ i < count, acceptedWithinCap (rand i) (spawnBatch rand ids i) = true) :
    (∀ t ∈ existingTargets,
      MIN_DISTANCE * MIN_DISTANCE ≤
        dist2 (generateRandomPosition rand1 existingTargets) t.position) ∧
    (spawnBatch rand ids count).Pairwise
      (fun a b => MIN_DISTANCE * MIN_DISTANCE ≤ dist2 a.position b.position) :=
  ⟨tooClose_false_min_sep _ _ (generateRandomPosition_accepted _ _ h1),
    spawnBatch_pairwise rand ids count h2⟩

/-- Witness for C5: an empty existing set accepts the first candidate, and
the empty batch satisfies the (vacuous) budget hypothesis. -/
theorem min_separation_enforced_witness :
    acceptedWithinCap (fun _ => 0) [] = true ∧
    (∀ i < 0, acceptedWithinCap ((fun _ _ => 0) i)
      (spawnBatch (fun _ _ => 0) (fun _ => 0) i) = true) ∧
    ((∀ t ∈ ([] : List Target),
        MIN_DISTANCE * MIN_DISTANCE ≤
          dist2 (generateRandomPosition (fun _ => 0) []) t.position) ∧
     (spawnBatch (fun _ _ => 0) (fun _ => 0) 0).Pairwise
        (fun a b => MIN_DISTANCE * MIN_DISTANCE ≤ dist2 a.position b.position)) :=
  ⟨by simp [acceptedWithinCap, tooClose]; exact ⟨0, by decide⟩, by omega,
    min_separation_enforced (fun _ => 0) [] (fun _ _ => 0) (fun _ => 0) 0
      (by simp [acceptedWithinCap, tooClose]; exact ⟨0, by decide⟩) (by omega)⟩

/-- One timeout flag is emitted per animation frame. -/
lemma pulseRun_length (speed : ℚ) :
    ∀ (ds : List ℚ) (s : PulseState), ((pulseRun speed ds s).2).length = ds.length
  | [], _ => rfl
  | d :: ds, s => by
    simp [pulseRun, pulseRun_length speed ds]

/-- The life clock accumulates `delta * speed` over a run. -/
lemma pulseRun_life (speed : ℚ) :
    ∀ (ds : List ℚ) (s : PulseState),
      (pulseRun speed ds s).1.life = s.life + speed * ds.sum
  | [], s => by simp [pulseRun]
  | d :: ds, s => by
    simp only [pulseRun]
    rw [pulseRun_life speed ds]
    simp only [pulseFrame, List.sum_cons]
    ring

/-- Once the fired-once flag is set, no later frame fires the timeout. -/
lemma pulseRun_count_fired (speed : ℚ) :
    ∀ (ds : List ℚ) (s : PulseState), s.fired = true →
      (pulseRun speed ds s).2.count true = 0
  | [], _, _ => rfl
  | d :: ds, s, h => by
    simp only [pulseRun]
    have hf : (pulseFrame speed s d).2 = false := by simp [pulseFrame, h]
    have hs : (pulseFrame speed s d).1.fired = true := by simp [pulseFrame, h]
    rw [List.count_cons, pulseRun_count_fired speed ds _ hs, hf]
    simp

/-- The timeout fires at most once over any run. -/
lemma pulseRun_count_le_one (speed : ℚ) :
    ∀ (ds : List ℚ) (s : PulseState), (pulseRun speed ds s).2.count true ≤ 1
  | [], _ => by simp [pulseRun]
  | d :: ds, s => by
    simp only [pulseRun]
    by_cases hf : (pulseFrame speed s d).2 = true
    · have hs : (pulseFrame speed s d).1.fired = true := by
        simp only [pulseFrame] at hf ⊢
        rw [hf]
        simp
      rw [List.count_cons, pulseRun_count_fired speed ds _ hs, hf]
      simp
    · rw [List.count_cons]
      have hrec := pulseRun_count_le_one speed ds (pulseFrame speed s d).1
      simp only [Bool.not_eq_true] at hf
      rw [hf]
      simp
      omega

/-- The timeout flag of frame `i` is set exactly when frame `i` is the
first frame whose life clock exceeds `Math.PI` and the flag was not
already set at the start of the run. -/
lemma pulseRun_getD (speed : ℚ) :
    ∀ (ds : List ℚ) (s : PulseState) (i : ℕ), i < ds.length →
      ((pulseRun speed ds s).2.getD i false = true ↔
        (s.fired = false ∧
         MathPI < s.life + speed * ((ds.take (i + 1)).sum) ∧
         ∀ j < i, s.life + speed * ((ds.take (j + 1)).sum) ≤ MathPI))
  | [], s, i => by
    intro h
    simp at h
  | d :: ds, s, 0 => by
    intro _
    simp only [pulseRun, List.getD_cons_zero, pulseFrame]
    have e0 : s.life + d * speed = s.life + speed * (((d :: ds).take (0 + 1)).sum) := by
      simp only [List.take_succ_cons, List.take_zero, List.sum_cons, List.sum_nil]
      ring
    rw [Bool.and_eq_true, decide_eq_true_eq, Bool.not_eq_true', e0]
    constructor
    · rintro ⟨h1, h2⟩
      exact ⟨h2, h1, fun j hj => absurd hj (by omega)⟩
    · rintro ⟨h1, h2, _⟩
      exact ⟨h2, h1⟩
  | d :: ds, s, i + 1 => by
    intro h
    simp only [List.length_cons] at h
    have hi : i < ds.length := by omega
    simp only [pulseRun, List.getD_cons_succ]
    rw [pulseRun_getD speed ds (pulseFrame speed s d).1 i hi]
    simp only [pulseFrame]
    have e1 : ∀ m : ℕ,
        s.life + d * speed + speed * ((ds.take (m + 1)).sum) =
          s.life + speed * (((d :: ds).take (m + 1 + 1)).sum) := by
      intro m
      simp only [List.take_succ_cons, List.sum_cons]
      ring
    have e2 : (s.fired || (decide (MathPI < s.life + d * speed) && !s.fired)) = false ↔
        (s.fired = false ∧ s.life + d * speed ≤ MathPI) := by
      cases hs : s.fired <;> simp [not_lt]
    have e0 : s.life + d * speed = s.life + speed * (((d :: ds).take (0 + 1)).sum) := by
      simp only [List.take_succ_cons, List.take_zero, List.sum_cons, List.sum_nil]
      ring
    rw [e2]
    simp only [e1]
    rw [e0]
    constructor
    · rintro ⟨⟨hA, h0⟩, hP, hall⟩
      refine ⟨hA, hP, fun j hj => ?_⟩
      cases j with
      | zero => exact h0
      | succ j' => exact hall j' (by omega)
    · rintro ⟨hA, hP, hall⟩
      exact ⟨⟨hA, hall 0 (by omega)⟩, hP, fun j hj => hall (j + 1) (by omega)⟩

/-- C6: the pulse speed is drawn in `[0.3, 0.5)`; the life clock starts at
0 (initial scale `sin(0) * 1.5 = 0`) and accumulates `delta * speed` over
the run, so the rendered scale after the run is `sin(lifeClock) * 1.5`
with `lifeClock = speed * Σ deltas`; the timeout fires at most once over
any run, and the flag of frame `i` is set exactly when frame `i` is the
first one whose life clock exceeds `Math.PI` (the double the source's
comparison uses for π). -/
theorem pulse_scale_and_single_timeout (r : ℚ) (ds : List ℚ)
    (hr0 : 0 ≤ r) (hr1 : r < 1) :
    (3 / 10 ≤ pulseSpeed r ∧ pulseSpeed r < 5 / 10) ∧
    pulseInit.life = 0 ∧
    Real.sin ((pulseInit.life : ℚ) : ℝ) * 1.5 = 0 ∧
    (pulseRun (pulseSpeed r) ds pulseInit).1.life = pulseSpeed r * ds.sum ∧
    Real.sin (((pulseRun (pulseSpeed r) ds pulseInit).1.life : ℚ) : ℝ) * 1.5 =
      Real.sin ((pulseSpeed r * ds.sum : ℚ) : ℝ) * 1.5 ∧
    (pulseRun (pulseSpeed r) ds pulseInit).2.count true ≤ 1 ∧
    (∀ i < ds.length,
      ((pulseRun (pulseSpeed r) ds pulseInit).2.getD i false = true ↔
        (MathPI < lifeAt (pulseSpeed r) ds i ∧
         ∀ j < i, lifeAt (pulseSpeed r) ds j ≤ MathPI))) := by
  have hlife : (pulseRun (pulseSpeed r) ds pulseInit).1.life = pulseSpeed r * ds.sum := by
    rw [pulseRun_life]
    simp [pulseInit]
  refine ⟨⟨?_, ?_⟩, rfl, ?_, hlife, ?_, pulseRun_count_le_one _ _ _, ?_⟩
  · unfold pulseSpeed
    linarith
  · unfold pulseSpeed
    linarith
  · norm_num [pulseInit]
  · rw [hlife]
  · intro i hi
    rw [pulseRun_getD (pulseSpeed r) ds pulseInit i hi]
    unfold lifeAt
    simp [pulseInit]

/-- Witness for C6 at draw `r = 1/2` and a single frame of delta 20. -/
theorem pulse_scale_and_single_timeout_witness :
    (0 : ℚ) ≤ 1 / 2 ∧ (1 / 2 : ℚ) < 1 ∧
    ((3 / 10 ≤ pulseSpeed (1 / 2) ∧ pulseSpeed (1 / 2) < 5 / 10) ∧
     pulseInit.life = 0 ∧
     Real.sin ((pulseInit.life : ℚ) : ℝ) * 1.5 = 0 ∧
     (pulseRun (pulseSpeed (1 / 2)) [20] pulseInit).1.life =
       pulseSpeed (1 / 2) * ([20] : List ℚ).sum ∧
     Real.sin (((pulseRun (pulseSpeed (1 / 2)) [20] pulseInit).1.life : ℚ) : ℝ) * 1.5 =
       Real.sin ((pulseSpeed (1 / 2) * ([20] : List ℚ).sum : ℚ) : ℝ) * 1.5 ∧
     (pulseRun (pulseSpeed (1 / 2)) [20] pulseInit).2.count true ≤ 1 ∧
     (∀ i < ([20] : List ℚ).length,
       ((pulseRun (pulseSpeed (1 / 2)) [20] pulseInit).2.getD i false = true ↔
         (MathPI < lifeAt (pulseSpeed (1 / 2)) [20] i ∧
          ∀ j < i, lifeAt (pulseSpeed (1 / 2)) [20] j ≤ MathPI)))) :=
  ⟨by norm_num, by norm_num,
    pulse_scale_and_single_timeout (1 / 2) [20] (by norm_num) (by norm_num)⟩
